import Mathlib

/-
Verification of the environment-transaction engine and install orchestrator of
the ModuSnap-ComfyUI-Manager repository, as a shallow embedding in Lean 4.

The definitions below are translated from the TypeScript sources (and the
Python dependency-audit script embedded in them).  JavaScript strings become
Lean `String`s, arrays become `List`s, `undefined` / `null` become `Option`,
and the effectful surface (the `pip` subprocess, the file system, UUID and
clock) is passed in explicitly as oracle parameters so every definition stays
executable.  File-system mutation is modelled as an explicit operation trace.
-/

set_option maxRecDepth 8192

namespace ModuSnap

/-! ## Small string utilities (models of the JavaScript string primitives) -/

/-- Whitespace recognised by `String.prototype.trim` (the forms that occur in
the inputs handled here). -/
def isJsWs (c : Char) : Bool :=
  c == ' ' || c == '\t' || c == '\n' || c == '\r'

/-- Model of `String.prototype.trim`: strip leading and trailing whitespace. -/
def jsTrim (s : String) : String :=
  ⟨((s.data.dropWhile isJsWs).reverse.dropWhile isJsWs).reverse⟩

/-- Model of `String.prototype.split(sep)` for a one-character separator. -/
def splitOnChar (sep : Char) (s : String) : List String :=
  (s.data.splitOn sep).map List.asString

/-- Does `needle` occur at the start of `hay`?  (List-level helper.) -/
def startsWithChars : List Char → List Char → Bool
  | [], _ => true
  | _ :: _, [] => false
  | a :: as, b :: bs => a == b && startsWithChars as bs

/-- Model of `String.prototype.includes`: substring containment. -/
def containsChars : List Char → List Char → Bool
  | n, [] => n.isEmpty
  | n, h :: t => startsWithChars n (h :: t) || containsChars n t

/-- Substring containment on strings (`hay.includes(needle)`). -/
def strIncludes (hay needle : String) : Bool :=
  containsChars needle.data hay.data

/-- Model of `String.prototype.toLowerCase` for the ASCII text handled here. -/
def lowerStr (s : String) : String :=
  ⟨s.data.map Char.toLower⟩

/-- Model of `Array.prototype.join(" ")`. -/
def joinSpace (l : List String) : String :=
  String.intercalate " " l

/-! ## TxStore / TxEngine data model (src/app/api/_lib/backendControl.ts)

The transaction record `EnvTx`.  The TypeScript `kind` and `status` fields are
string unions (`'repair' | 'install'` and
`'planned' | 'running' | 'succeeded' | 'failed' | 'rolled_back'`); they are
kept as `String` here so that statements about values outside the union (for
example the specified kind `"rollback"`) remain statable.  Optional fields
(`?:` and `| null`) become `Option`; the `snapshotBefore = null` and
`snapshotBefore` absent cases are both `none`. -/

structure EnvStep where
  id : String
  command : String
  ok : Bool
  status : Nat
  output : String
  startedAt : String
  finishedAt : String
deriving DecidableEq, Repr

structure EnvTx where
  id : String
  kind : String
  status : String
  createdAt : String
  updatedAt : String
  requestedPackages : List String
  planCommands : List String
  steps : List EnvStep
  pipCheckOutput : Option String := none
  pipHealthy : Option Bool := none
  rollbackOf : Option String := none
  snapshotBefore : Option String := none
  snapshotAfter : Option String := none
  error : Option String := none
deriving DecidableEq, Repr, Inhabited

/-- `const MAX_TX = 200`. -/
def MAX_TX : Nat := 200

/-- `[...store.transactions].slice(-MAX_TX)`: keep the last 200 entries. -/
def truncateTx (l : List EnvTx) : List EnvTx :=
  l.drop (l.length - MAX_TX)

/-- Paths used by the store (relative to the backend directory). -/
def envRootPath : String := "user/modusnap_manager_env"

def txStorePath : String := "user/modusnap_manager_env/transactions.json"

def snapshotsDirPath : String := "user/modusnap_manager_env/snapshots"

/-- File-system operations performed by the store layer, as an explicit trace.
`writeFile` carries the transaction list that is serialised into the file. -/
inductive FsOp where
  | mkdir (path : String)
  | writeFile (path : String) (transactions : List EnvTx)
  | rename (src : String) (dst : String)
deriving DecidableEq, Repr

/-- Is the operation a rename? -/
def FsOp.isRename : FsOp → Bool
  | .rename _ _ => true
  | _ => false

/-- `writeStore(store)`: `ensureDirs()` (two `mkdirSync` calls) followed by one
direct `fs.writeFileSync(txStorePath(), JSON.stringify(trimmed, null, 2))` of
the truncated store.  The emitted trace is the complete list of file-system
operations of one `writeStore` call. -/
def writeStoreOps (store : List EnvTx) : List FsOp :=
  [FsOp.mkdir envRootPath, FsOp.mkdir snapshotsDirPath,
   FsOp.writeFile txStorePath (truncateTx store)]

/-- `readStore()` recovery behaviour: a missing file (`none`) or a file whose
content fails `JSON.parse` / shape validation (`some none`) both yield the
empty store; only a well-formed file (`some (some l)`) yields its content. -/
def readStoreFrom : Option (Option (List EnvTx)) → List EnvTx
  | none => []
  | some none => []
  | some (some l) => l

/-! ## sanitizePackages and createPlan -/

/-- Character class of the sanitiser regex
`/^[A-Za-z0-9_.\-<>=!~\[\],:@+/ ]+$/` (note: space, hyphen and slash are all
inside the class). -/
def allowedSpecChar (c : Char) : Bool :=
  (65 ≤ c.toNat && c.toNat ≤ 90) || (97 ≤ c.toNat && c.toNat ≤ 122) ||
  (48 ≤ c.toNat && c.toNat ≤ 57) ||
  c == '_' || c == '.' || c == '-' || c == '<' || c == '>' || c == '=' ||
  c == '!' || c == '~' || c == '[' || c == ']' || c == ',' || c == ':' ||
  c == '@' || c == '+' || c == '/' || c == ' '

/-- Evaluation of the sanitiser regex on a whole string: one or more allowed
characters. -/
def specRegexTest (s : String) : Bool :=
  !s.isEmpty && s.data.all allowedSpecChar

/-- Loop body of `sanitizePackages`: trim, skip empty values, skip values that
fail the regex, and add to the set (first occurrence wins, insertion order is
kept, as with a JavaScript `Set`). -/
def sanitizeGo : List String → List String → List String
  | [], acc => acc
  | x :: xs, acc =>
    if jsTrim x = "" then sanitizeGo xs acc
    else if !specRegexTest (jsTrim x) then sanitizeGo xs acc
    else if acc.contains (jsTrim x) then sanitizeGo xs acc
    else sanitizeGo xs (acc ++ [jsTrim x])

/-- `sanitizePackages(input)` for an array input (a non-array input returns
`[]` upstream and is not modelled). -/
def sanitizePackages (input : List String) : List String :=
  sanitizeGo input []

/-- `buildPlan(kind, requestedPackages)`. -/
def buildPlan (kind : String) (requestedPackages : List String) : List String :=
  (["python -m pip install -r requirements.txt",
    "python -m pip install -r manager_requirements.txt"] ++
   (if kind = "install" ∧ requestedPackages ≠ [] then
      ["python -m pip install " ++ joinSpace requestedPackages]
    else [])) ++
  ["python -m pip check"]

/-- The transaction object built by `createPlan` (it does not depend on the
store).  `freshId` and `now` stand for `randomUUID()` and the ISO timestamp. -/
def planTx (freshId now : String) (mode : String) (packages : List String) : EnvTx :=
  let kind := if mode = "install" then "install" else "repair"
  let requestedPackages := sanitizePackages packages
  { id := freshId
    kind := kind
    status := "planned"
    createdAt := now
    updatedAt := now
    requestedPackages := requestedPackages
    planCommands := buildPlan kind requestedPackages
    steps := []
    error := none }

/-- `createPlan`: read the persisted store, push the new transaction, persist
(truncating to the last 200).  The state threaded through is exactly the
persisted content of `transactions.json`. -/
def createPlan (freshId now : String) (mode : String) (packages : List String)
    (store : List EnvTx) : EnvTx × List EnvTx :=
  let tx := planTx freshId now mode packages
  (tx, truncateTx (store ++ [tx]))

/-- N successive `createPlan` calls starting from the empty store (fresh ids
and timestamps are the call counter rendered as a string). -/
def storeAfterCreates : Nat → List EnvTx
  | 0 => []
  | n + 1 => (createPlan (toString n) (toString n) "repair" [] (storeAfterCreates n)).2

/-- The full creation-ordered sequence of the transactions created by
`storeAfterCreates`. -/
def createdSeq (n : Nat) : List EnvTx :=
  (List.range n).map (fun k => planTx (toString k) (toString k) "repair" [])

/-! ## apply / rollback with an explicit subprocess oracle

`runPython` spawns the venv interpreter; here the outcome of the k-th
subprocess invocation of an operation is `calls k`.  A missing venv is the
special case where the synthetic failed step is returned, which is one
particular `StepResult` with `ok = false`, so the oracle covers it too.
`fileExists` models `fs.existsSync`, `freshId` models `randomUUID()` and
`now` the ISO clock. -/

structure StepResult where
  ok : Bool
  status : Nat
  output : String
deriving DecidableEq, Repr

structure PipEnv where
  calls : Nat → StepResult
  fileExists : String → Bool
  freshId : Nat → String
  now : String

/-- `runPython(backendDir, args)` as the k-th subprocess call of the current
operation (the command string records `python` plus the arguments). -/
def runPythonStep (env : PipEnv) (k : Nat) (args : List String) : EnvStep :=
  let r := env.calls k
  { id := env.freshId k
    command := "python " ++ joinSpace args
    ok := r.ok
    status := r.status
    output := r.output
    startedAt := env.now
    finishedAt := env.now }

/-- `writeFreezeSnapshot(backendDir, tag)`: run `pip freeze` (call index `k`);
on failure return `null`, otherwise write `snapshots/<tag>.txt` and return its
path. -/
def writeFreezeSnapshot (env : PipEnv) (k : Nat) (tag : String) : Option String :=
  if (env.calls k).ok then some (snapshotsDirPath ++ "/" ++ tag ++ ".txt") else none

/-- `findTx(id)`: the first stored transaction with the given id. -/
def findTxInStore (store : List EnvTx) (id : String) : Option EnvTx :=
  store.find? (fun tx => tx.id == id)

/-- Result of `applyTransaction`, together with the persisted store content
after the call, the list of `writeStore` payloads the call performed, and how
many subprocess invocations it made. -/
structure ApplyOutcome where
  ok : Bool
  httpStatus : Nat
  error : Option String
  transaction : Option EnvTx
  store : List EnvTx
  writes : List (List EnvTx)
  pythonCalls : Nat
deriving Repr

/-- `applyTransaction(id)`.  Guard order as in the source: unknown id gives
404; a status outside {planned, failed} gives 409 before any mutation, step or
store write.  On the apply path the steps are: freeze-before, the two
baseline installs, optionally `pip install <packages>` for an install kind,
then `pip check` which decides the final status, and a freeze-after. -/
def applyTransaction (env : PipEnv) (store : List EnvTx) (id : String) : ApplyOutcome :=
  match store.findIdx? (fun tx => tx.id == id) with
  | none =>
    { ok := false, httpStatus := 404, error := some "Transaction not found."
      transaction := none, store := store, writes := [], pythonCalls := 0 }
  | some i =>
    let tx := (store.get? i).getD default
    if tx.status = "planned" ∨ tx.status = "failed" then
      let tx1 : EnvTx :=
        { tx with status := "running", updatedAt := env.now, error := none
                  snapshotBefore := writeFreezeSnapshot env 0 (tx.id ++ "-before") }
      let store1 := store.set i tx1
      let step1 := runPythonStep env 1 ["-m", "pip", "install", "-r", "requirements.txt"]
      let step2 := runPythonStep env 2 ["-m", "pip", "install", "-r", "manager_requirements.txt"]
      let extra : List EnvStep :=
        if tx.kind = "install" ∧ tx.requestedPackages ≠ [] then
          [runPythonStep env 3 (["-m", "pip", "install"] ++ tx.requestedPackages)]
        else []
      let kCheck := 3 + extra.length
      let pipCheck := runPythonStep env kCheck ["-m", "pip", "check"]
      let steps := [step1, step2] ++ extra ++ [pipCheck]
      let tx2 : EnvTx :=
        { tx1 with
            steps := tx1.steps ++ steps
            pipHealthy := some pipCheck.ok
            pipCheckOutput := some pipCheck.output
            snapshotAfter := writeFreezeSnapshot env (kCheck + 1) (tx.id ++ "-after")
            status := if pipCheck.ok then "succeeded" else "failed"
            error := if pipCheck.ok then none else some "pip check reported conflicts after apply."
            updatedAt := env.now }
      let store2 := store1.set i tx2
      { ok := true, httpStatus := 200, error := none, transaction := some tx2
        store := truncateTx store2
        writes := [truncateTx store1, truncateTx store2]
        pythonCalls := kCheck + 2 }
    else
      { ok := false, httpStatus := 409
        error := some ("Transaction is " ++ tx.status ++ "; only planned/failed can be applied.")
        transaction := none, store := store, writes := [], pythonCalls := 0 }

/-- Result of `rollbackTransaction`. -/
structure RollbackOutcome where
  ok : Bool
  httpStatus : Nat
  error : Option String
  transaction : Option EnvTx
  store : List EnvTx
deriving Repr

/-- The literal plan commands recorded by `rollbackTransaction`. -/
def rollbackPlanCommands : List String :=
  ["python -m pip install -r <snapshot-before>", "python -m pip check"]

/-- `rollbackTransaction(id)`.  Missing transaction gives 404; a transaction
without a pre-apply snapshot on disk gives 409.  Otherwise a new transaction
is built (note the source sets `kind: 'repair'` — the `EnvTxKind` union has no
rollback member), the freeze file is re-installed, `pip check` decides between
`rolled_back` and `failed`, and the new transaction is pushed and persisted. -/
def rollbackTransaction (env : PipEnv) (store : List EnvTx) (id : String) : RollbackOutcome :=
  match findTxInStore store id with
  | none =>
    { ok := false, httpStatus := 404, error := some "Transaction not found."
      transaction := none, store := store }
  | some tx =>
    match tx.snapshotBefore with
    | none =>
      { ok := false, httpStatus := 409
        error := some "No pre-apply snapshot found for this transaction."
        transaction := none, store := store }
    | some sb =>
      if env.fileExists sb then
        let install := runPythonStep env 0 ["-m", "pip", "install", "-r", sb]
        let check := runPythonStep env 1 ["-m", "pip", "check"]
        let newId := env.freshId 100
        let rollbackTx : EnvTx :=
          { id := newId
            kind := "repair"
            status := if check.ok then "rolled_back" else "failed"
            createdAt := env.now
            updatedAt := env.now
            requestedPackages := []
            planCommands := rollbackPlanCommands
            steps := [install, check]
            pipHealthy := some check.ok
            pipCheckOutput := some check.output
            rollbackOf := some tx.id
            snapshotBefore := some sb
            snapshotAfter := writeFreezeSnapshot env 2 (newId ++ "-after")
            error := if check.ok then none
                     else some "Rollback completed but pip check still reports conflicts." }
        { ok := true, httpStatus := 200, error := none
          transaction := some rollbackTx
          store := truncateTx (store ++ [rollbackTx]) }
      else
        { ok := false, httpStatus := 409
          error := some "No pre-apply snapshot found for this transaction."
          transaction := none, store := store }

/-! ## Concrete fixtures used by individual claims -/

/-- Oracle for the C2 scenario: every subprocess call succeeds, the snapshot
file exists. -/
def exEnvC2 : PipEnv :=
  { calls := fun _ => { ok := true, status := 0, output := "ok" }
    fileExists := fun _ => true
    freshId := fun k => "rb-" ++ toString k
    now := "2026-10-11T00:00:00.000Z" }

/-- A stored transaction with a pre-apply snapshot on disk. -/
def exTxC2 : EnvTx :=
  { id := "t1", kind := "install", status := "succeeded"
    createdAt := "c", updatedAt := "u"
    requestedPackages := [], planCommands := [], steps := []
    snapshotBefore := some "snap-before.txt" }

/-- Oracle for the C3 scenario. -/
def exEnvC3 : PipEnv :=
  { calls := fun _ => { ok := true, status := 0, output := "ok" }
    fileExists := fun _ => true
    freshId := fun k => "ap-" ++ toString k
    now := "2026-10-11T00:00:00.000Z" }

/-- A stored transaction whose status is outside planned and failed. -/
def exTxC3 : EnvTx :=
  { id := "t9", kind := "repair", status := "running"
    createdAt := "c", updatedAt := "u"
    requestedPackages := [], planCommands := [], steps := [] }

/-- A stored transaction for the C4 write-trace scenario. -/
def exTxC4 : EnvTx :=
  { id := "t4", kind := "repair", status := "planned"
    createdAt := "c", updatedAt := "u"
    requestedPackages := [], planCommands := [], steps := [] }

/-! ## CompatibilityAuditor (preflight route, `assessItem` / `POST`)

Catalog items arrive as free-form JSON; the fields read by the auditor are
modelled, `undefined` as `none`.  `ui_id` and `uiKey` are the `ui_id` and
`__uiKey` keys of the payload. -/

structure CatalogItem where
  id : Option String := none
  title : Option String := none
  author : Option String := none
  description : Option String := none
  repository : Option String := none
  reference : Option String := none
  files : List String := []
  ui_id : Option String := none
  uiKey : Option String := none
deriving DecidableEq, Repr

/-- JavaScript truthiness on an optional string: `undefined` and `""` are
falsy. -/
def jsTruthy : Option String → Option String
  | none => none
  | some s => if s = "" then none else some s

/-- `getTextBlob(item)`: the present, non-empty text fields and files joined
with spaces and lowercased (`filter(Boolean).join(' ').toLowerCase()`). -/
def getTextBlob (item : CatalogItem) : String :=
  lowerStr (String.intercalate " "
    ((([item.id, item.title, item.author, item.description, item.repository,
        item.reference].filterMap id) ++ item.files).filter (fun s => s ≠ "")))

/-- Parsed hardware-profile flags (`readHardwareProfile`): pure function of
the profile string. -/
structure HwFlags where
  profile : String
  hasNvidia : Bool
  hasRocm : Bool
  isDarwinArm64 : Bool
deriving DecidableEq, Repr

/-- Flags computed from the profile text by substring tests on its lowercase
form. -/
def hwFromProfile (profile : String) : HwFlags :=
  { profile := profile
    hasNvidia := strIncludes (lowerStr profile) "nvidia:true"
    hasRocm := strIncludes (lowerStr profile) "rocm:true"
    isDarwinArm64 := strIncludes (lowerStr profile) "darwin-arm64" }

/-- The three-valued preflight decision. -/
inductive Decision where
  | installable
  | warning
  | blocked
deriving DecidableEq, Repr

/-- Literal alternatives of the `cudaOnlyMarkers` regex. -/
def cudaOnlyMarkerList : List String :=
  ["cuda-only", "requires cuda", "nvidia-only", "requires nvidia",
   "tensorrt required", "triton required"]

/-- Literal alternatives of the `rocmOnlyMarkers` regex. -/
def rocmOnlyMarkerList : List String := ["rocm-only", "requires rocm", "hip required"]

/-- Literal alternatives of the general CUDA regex. -/
def cudaGeneralMarkerList : List String := ["cuda", "nvidia", "tensorrt", "cu12", "cu11"]

/-- Literal alternatives of the general ROCm regex. -/
def rocmGeneralMarkerList : List String := ["rocm", "hip"]

/-- Literal alternatives of the macOS-ARM64 regex. -/
def darwinMarkerList : List String := ["xformers", "triton", "flash-attn", "bitsandbytes"]

/-- A case-insensitive alternation-of-literals regex test on the (already
lowercased) blob is substring containment of one of the alternatives. -/
def matchesAny (text : String) (pats : List String) : Bool :=
  pats.any (fun p => strIncludes text p)

/-- Per-item result of the auditor. -/
structure PackDecision where
  key : String
  title : String
  decision : Decision
  reasons : List String
deriving DecidableEq, Repr

/-- `assessItem(item, hw)`: the three sequential rule blocks.  The first is
an if/else-if chain; the second and third only lower the decision to warning
when it is not already blocked, while the rocm-only block sets blocked
unconditionally.  `Date.now()` in the key fallback is a fixed placeholder
(it is only reached when every key source is falsy). -/
def assessItem (item : CatalogItem) (hw : HwFlags) : PackDecision :=
  let text := getTextBlob item
  let s1 : Decision × List String :=
    if !hw.hasNvidia && matchesAny text cudaOnlyMarkerList then
      (Decision.blocked,
       ["Pack appears to require NVIDIA/CUDA runtime and is marked as NVIDIA-only."])
    else if !hw.hasNvidia && matchesAny text cudaGeneralMarkerList then
      (Decision.warning,
       ["Pack metadata suggests NVIDIA/CUDA dependencies, but NVIDIA hardware is not detected."])
    else (Decision.installable, [])
  let s2 : Decision × List String :=
    if !hw.hasRocm && matchesAny text rocmOnlyMarkerList then
      (Decision.blocked,
       s1.2 ++ ["Pack appears to require ROCm runtime and is marked as ROCm-only."])
    else if !hw.hasRocm && matchesAny text rocmGeneralMarkerList then
      ((if s1.1 = Decision.blocked then s1.1 else Decision.warning),
       s1.2 ++ ["Pack metadata suggests ROCm dependencies, but ROCm hardware is not detected."])
    else s1
  let s3 : Decision × List String :=
    if hw.isDarwinArm64 && matchesAny text darwinMarkerList then
      ((if s2.1 = Decision.blocked then s2.1 else Decision.warning),
       s2.2 ++ ["Pack may require binaries that are often unavailable on macOS ARM64."])
    else s2
  { key := ((jsTruthy item.ui_id).orElse (fun _ => (jsTruthy item.uiKey).orElse
      (fun _ => (jsTruthy item.id).orElse (fun _ => (jsTruthy item.title).orElse
        (fun _ => jsTruthy item.repository))))).getD "item_nowPlaceholder"
    title := ((jsTruthy item.title).orElse (fun _ => jsTruthy item.id)).getD "Unknown pack"
    decision := s3.1
    reasons := s3.2 }

/-- The per-item rows of the preflight `POST`. -/
def preflightRows (items : List CatalogItem) (hw : HwFlags) : List PackDecision :=
  items.map (fun it => assessItem it hw)

/-- The preflight summary object. -/
structure PreflightSummary where
  total : Nat
  installable : Nat
  warning : Nat
  blocked : Nat
deriving DecidableEq, Repr

/-- `summary` of the preflight `POST`: warning and blocked are counted and
installable is the remainder. -/
def preflightSummary (items : List CatalogItem) (hw : HwFlags) : PreflightSummary :=
  let perItem := preflightRows items hw
  let warning := (perItem.filter (fun row => row.decision = Decision.warning)).length
  let blocked := (perItem.filter (fun row => row.decision = Decision.blocked)).length
  { total := items.length
    installable := perItem.length - warning - blocked
    warning := warning
    blocked := blocked }

/-- `blockedKeys` of the preflight `POST`. -/
def preflightBlockedKeys (items : List CatalogItem) (hw : HwFlags) : List String :=
  ((preflightRows items hw).filter (fun row => row.decision = Decision.blocked)).map
    (fun row => row.key)

/-- Conditions under which some rule of `assessItem` classifies the item
blocked. -/
def blockedRuleFires (item : CatalogItem) (hw : HwFlags) : Bool :=
  (!hw.hasNvidia && matchesAny (getTextBlob item) cudaOnlyMarkerList) ||
  (!hw.hasRocm && matchesAny (getTextBlob item) rocmOnlyMarkerList)

/-- Conditions under which some rule of `assessItem` fires with warning
severity. -/
def warningRuleFires (item : CatalogItem) (hw : HwFlags) : Bool :=
  (!hw.hasNvidia && matchesAny (getTextBlob item) cudaGeneralMarkerList) ||
  (!hw.hasRocm && matchesAny (getTextBlob item) rocmGeneralMarkerList) ||
  (hw.isDarwinArm64 && matchesAny (getTextBlob item) darwinMarkerList)

/-- E4 fixtures. -/
def hwE4 : HwFlags := hwFromProfile "darwin-arm64-nvidia:false-rocm:false"

def itemE4a : CatalogItem :=
  { title := some "CUDA-only Flash Attention", description := some "requires cuda" }

def itemE4b : CatalogItem :=
  { title := some "Standard pack", description := some "pure python" }

/-! ## Install-session slice of the orchestrator (`executeInstallSession`)

The fragment modelled is the preflight filtering and chunk submission: the
candidate rows (already filtered to selected, not-installed packs), the
incompatible-key list derived from the preflight report, the skip marking,
and the chunked submission of the surviving rows.  Cancellation stops the
chunk loop early; the model produces the full chunk list, of which any
cancelled run submits a prefix. -/

structure InstallRow where
  key : String
  item : CatalogItem
deriving DecidableEq, Repr

/-- `toCompatibilityPayload(row)`: the payload sent to the preflight route;
`__uiKey` is the row key and missing text fields default as in the source. -/
def toCompatibilityPayload (row : InstallRow) : CatalogItem :=
  { uiKey := some row.key
    id := some ((jsTruthy row.item.id).getD row.key)
    title := some ((jsTruthy row.item.title).getD row.key)
    author := some ((jsTruthy row.item.author).getD "")
    description := some ((jsTruthy row.item.description).getD "")
    repository := some ((jsTruthy row.item.repository).getD "")
    reference := some ((jsTruthy row.item.reference).getD "")
    files := row.item.files
    ui_id := none }

/-- `incompatibleKeys`: keys of the preflight rows whose decision is not
installable.  (For batches over 600 items the route sends only the
non-installable rows; filtering the full row list gives the same keys.) -/
def incompatibleKeysOf (rows : List InstallRow) (hw : HwFlags) : List String :=
  ((rows.map (fun r => assessItem (toCompatibilityPayload r) hw)).filter
    (fun p => p.decision ≠ Decision.installable)).map (fun p => p.key)

/-- One entry of `installSession.items`. -/
structure SessionItem where
  key : String
  status : String
  details : Option String
deriving DecidableEq, Repr

/-- `updateInstallItems(keys, 'skipped', 'removed by compatibility preflight')`
applied to the session items. -/
def markSkipped (items : List SessionItem) (keys : List String) : List SessionItem :=
  items.map (fun it =>
    if keys.contains it.key then
      { it with status := "skipped", details := some "removed by compatibility preflight" }
    else it)

/-- The session items as prepared for the run (all pending). -/
def sessionItemsFor (rows : List InstallRow) : List SessionItem :=
  rows.map (fun r => { key := r.key, status := "pending", details := none })

/-- `installableRows`: candidate rows whose key is not in the incompatible
list. -/
def installableRowsOf (rows : List InstallRow) (hw : HwFlags) : List InstallRow :=
  rows.filter (fun r => !(incompatibleKeysOf rows hw).contains r.key)

/-- Fuelled helper for chunking; with `size ≥ 1` a fuel of the list length
is always sufficient, so the fuel never runs out. -/
def chunksGo (size : Nat) : Nat → List InstallRow → List (List InstallRow)
  | 0, _ => []
  | _, [] => []
  | fuel + 1, x :: l => (x :: l).take size :: chunksGo size fuel ((x :: l).drop size)

/-- Chunking of a list as by the for-loop `for (i = 0; i < n; i += size)`
(the session always calls it with a positive size). -/
def chunksOf (size : Nat) (l : List InstallRow) : List (List InstallRow) :=
  if size = 0 then [] else chunksGo size l.length l

/-- `chunkSize = installableRows.length > 200 ? 20 : 40`. -/
def sessionChunkSize (rows : List InstallRow) (hw : HwFlags) : Nat :=
  if 200 < (installableRowsOf rows hw).length then 20 else 40

/-- The chunks submitted to the Engine queue by the session (uncancelled
run). -/
def submittedChunks (rows : List InstallRow) (hw : HwFlags) : List (List InstallRow) :=
  chunksOf (sessionChunkSize rows hw) (installableRowsOf rows hw)

/-! ## DepReconciler (Python audit script in the compatibility-set route)

Versions are modelled by their release-component lists (`packaging`-style
numeric dotted versions, which is what the analysed requirement specifiers
and every version in the claims use); comparison pads with zeros as PEP 440
does, so `1.16` and `1.16.0` are equal but not structurally identical.
Non-numeric version texts are parse failures, which the script routes into
its `unsupported` bucket.  The quote characters of the Python reason strings
are left out of the rendered messages. -/

/-- Are all remaining release components zero? -/
def allZeros (l : List Nat) : Bool := l.all (fun x => x = 0)

/-- PEP 440 comparison of two release-component lists (zero padding). -/
def verCmp : List Nat → List Nat → Ordering
  | [], bs => if allZeros bs then .eq else .lt
  | a :: as, [] => if a = 0 && allZeros as then .eq else .gt
  | a :: as, b :: bs =>
    if a < b then .lt else if b < a then .gt else verCmp as bs

/-- Rendering of a release list, as `str(Version)` renders the versions at
hand (components joined with dots). -/
def renderVer (v : List Nat) : String :=
  String.intercalate "." (v.map toString)

/-- Digit-string parsing for one release component. -/
def parseNatChars (cs : List Char) : Option Nat :=
  if cs ≠ [] ∧ cs.all (fun c => c.isDigit) then
    some (cs.foldl (fun acc c => acc * 10 + (c.toNat - 48)) 0)
  else none

/-- `Version(text)` on the numeric dotted fragment: split on dots, every
component a digit string. -/
def parseVersion (s : String) : Option (List Nat) :=
  let parts := splitOnChar '.' (jsTrim s)
  if parts.all (fun p => (parseNatChars p.data).isSome) then
    some (parts.filterMap (fun p => parseNatChars p.data))
  else none

/-- The specifier operators of PEP 440. -/
inductive SpecOp where
  | eq
  | ne
  | lt
  | le
  | gt
  | ge
  | compat
  | arbitrary
deriving DecidableEq, Repr

/-- Parse one specifier: operator followed by a version text (`===` before
`==`, two-character operators before one-character ones). -/
def parseSpecifier (s : String) : Option (SpecOp × String) :=
  let t := jsTrim s
  if startsWithChars "===".data t.data then some (.arbitrary, jsTrim ⟨t.data.drop 3⟩)
  else if startsWithChars "==".data t.data then some (.eq, jsTrim ⟨t.data.drop 2⟩)
  else if startsWithChars "!=".data t.data then some (.ne, jsTrim ⟨t.data.drop 2⟩)
  else if startsWithChars "<=".data t.data then some (.le, jsTrim ⟨t.data.drop 2⟩)
  else if startsWithChars ">=".data t.data then some (.ge, jsTrim ⟨t.data.drop 2⟩)
  else if startsWithChars "~=".data t.data then some (.compat, jsTrim ⟨t.data.drop 2⟩)
  else if startsWithChars "<".data t.data then some (.lt, jsTrim ⟨t.data.drop 1⟩)
  else if startsWithChars ">".data t.data then some (.gt, jsTrim ⟨t.data.drop 1⟩)
  else none

/-- `SpecifierSet(text)`: comma-separated specifiers, blanks dropped; any
unparsable piece fails the whole set. -/
def parseSpecSet (text : String) : Option (List (SpecOp × String)) :=
  let parts := ((splitOnChar ',' text).map jsTrim).filter (fun p => p ≠ "")
  if parts.all (fun p => (parseSpecifier p).isSome) then
    some (parts.filterMap parseSpecifier)
  else none

/-- State of `specifiers_intersection`. -/
structure ISt where
  lower : Option (List Nat) := none
  lowerInc : Bool := true
  upper : Option (List Nat) := none
  upperInc : Bool := true
  exactPin : Option (List Nat) := none
  notEquals : List (List Nat) := []
  unsupported : List String := []
deriving DecidableEq, Repr

/-- Result object of `specifiers_intersection` (an early return carries no
`unsupported` key, read back as the empty list). -/
structure IRes where
  ok : Bool
  reason : String
  normalized : String
  unsupported : List String := []
deriving DecidableEq, Repr

/-- Python `set.add` on versions: version-equal entries collapse. -/
def addNe (l : List (List Nat)) (v : List Nat) : List (List Nat) :=
  if l.any (fun w => verCmp w v == .eq) then l else l ++ [v]

/-- `_compatible_upper_for`: bump the second-to-last release component, or
the major when there is at most one component. -/
def compatibleUpperFor (release : List Nat) : List Nat :=
  if release.length ≤ 1 then [release.headD 0 + 1]
  else release.dropLast.dropLast ++ [release.dropLast.getLastD 0 + 1]

/-- Lower-bound merge (`>` when `strict`, `>=` otherwise): replace when there
is no bound yet, the new bound is strictly larger, or it is version-equal and
the new operator is strict. -/
def lowerUpdateCond (lower : Option (List Nat)) (v : List Nat) (strict : Bool) : Bool :=
  match lower with
  | none => true
  | some l => (verCmp l v == .lt) || ((verCmp v l == .eq) && strict)

def applyLowerBound (st : ISt) (v : List Nat) (strict : Bool) : ISt :=
  if lowerUpdateCond st.lower v strict then
    { st with lower := some v, lowerInc := !strict }
  else st

/-- Upper-bound merge (`<` when `strict`, `<=` otherwise), symmetric. -/
def upperUpdateCond (upper : Option (List Nat)) (v : List Nat) (strict : Bool) : Bool :=
  match upper with
  | none => true
  | some u => (verCmp v u == .lt) || ((verCmp v u == .eq) && strict)

def applyUpperBound (st : ISt) (v : List Nat) (strict : Bool) : ISt :=
  if upperUpdateCond st.upper v strict then
    { st with upper := some v, upperInc := !strict }
  else st

/-- The `~=` branch: raise the lower bound (inclusive) when strictly larger,
then install the exclusive `_compatible_upper_for` bound, replacing the
current upper bound only when strictly smaller or version-equal to an
exclusive one. -/
def compatLowerCond (lower : Option (List Nat)) (low : List Nat) : Bool :=
  match lower with
  | none => true
  | some l => verCmp l low == .lt

def compatUpperCond (upper : Option (List Nat)) (inc : Bool) (up : List Nat) : Bool :=
  match upper with
  | none => true
  | some u => (verCmp up u == .lt) || ((verCmp up u == .eq) && !inc)

def applyCompat (st : ISt) (low : List Nat) : ISt :=
  let st1 :=
    if compatLowerCond st.lower low then
      { st with lower := some low, lowerInc := true }
    else st
  if compatUpperCond st1.upper st1.upperInc (compatibleUpperFor low) then
    { st1 with upper := some (compatibleUpperFor low), upperInc := false }
  else st1

/-- One specifier of one spec set folded into the state; `specText` is the
whole spec-set text (it appears in the arbitrary-equality message).  The
multiple-distinct-exact-pins case is the only early return. -/
def stepSpec (specText : String) (st : ISt) (sp : SpecOp × String) : Except IRes ISt :=
  match sp.1 with
  | .eq =>
    match parseVersion sp.2 with
    | none => .ok { st with unsupported :=
        st.unsupported ++ ["unable to parse exact version " ++ sp.2] }
    | some v =>
      match st.exactPin with
      | none => .ok { st with exactPin := some v }
      | some e =>
        if verCmp e v == .eq then .ok st
        else .error { ok := false, normalized := "", reason := "multiple exact pins: " ++ renderVer e ++ ", " ++ renderVer v }
  | .ne =>
    match parseVersion sp.2 with
    | none => .ok { st with unsupported :=
        st.unsupported ++ ["unable to parse exclusion " ++ sp.2] }
    | some v => .ok { st with notEquals := addNe st.notEquals v }
  | .gt =>
    match parseVersion sp.2 with
    | none => .ok { st with unsupported :=
        st.unsupported ++ ["unable to parse lower bound " ++ sp.2] }
    | some v => .ok (applyLowerBound st v true)
  | .ge =>
    match parseVersion sp.2 with
    | none => .ok { st with unsupported :=
        st.unsupported ++ ["unable to parse lower bound " ++ sp.2] }
    | some v => .ok (applyLowerBound st v false)
  | .lt =>
    match parseVersion sp.2 with
    | none => .ok { st with unsupported :=
        st.unsupported ++ ["unable to parse upper bound " ++ sp.2] }
    | some v => .ok (applyUpperBound st v true)
  | .le =>
    match parseVersion sp.2 with
    | none => .ok { st with unsupported :=
        st.unsupported ++ ["unable to parse upper bound " ++ sp.2] }
    | some v => .ok (applyUpperBound st v false)
  | .compat =>
    match parseVersion sp.2 with
    | none => .ok { st with unsupported :=
        st.unsupported ++ ["unable to parse compatible lower bound " ++ sp.2] }
    | some v => .ok (applyCompat st v)
  | .arbitrary => .ok { st with unsupported :=
      st.unsupported ++ ["arbitrary equality " ++ specText ++ " is not fully analyzable"] }

/-- Fold one spec-set text: blanks skipped, unparsable sets recorded, parsed
sets folded specifier by specifier. -/
def stepSpecText (st : ISt) (specText : String) : Except IRes ISt :=
  if specText = "" then .ok st
  else
    match parseSpecSet specText with
    | none => .ok { st with unsupported :=
        st.unsupported ++ ["unable to parse specifier " ++ specText] }
    | some sps => sps.foldlM (fun s sp => stepSpec specText s sp) st

/-- Lexicographic code-point comparison of strings (Python string order). -/
def charListLe : List Char → List Char → Bool
  | [], _ => true
  | _ :: _, [] => false
  | a :: as, b :: bs =>
    if a.toNat < b.toNat then true
    else if b.toNat < a.toNat then false
    else charListLe as bs

def strLe (a b : String) : Bool := charListLe a.data b.data

/-- Insertion into an ascending list. -/
def insertSorted (le : String → String → Bool) (x : String) : List String → List String
  | [] => [x]
  | y :: t => if le x y then x :: y :: t else y :: insertSorted le x t

/-- Ascending sort (Python `sorted` on strings; inputs are duplicate-free, so
the ascending arrangement is unique). -/
def sortStrings (l : List String) : List String :=
  l.foldr (insertSorted strLe) []

/-- Keep-first deduplication (Python `set` iteration collapsed to a sorted
list right after, so only the member set matters). -/
def dedupGo : List String → List String → List String
  | [], _ => []
  | x :: t, seen => if seen.contains x then dedupGo t seen else x :: dedupGo t (x :: seen)

def dedupStrings (l : List String) : List String := dedupGo l []

/-- Ascending version sort for the `!=` exclusions. -/
def insertVer (x : List Nat) : List (List Nat) → List (List Nat)
  | [] => [x]
  | y :: t => if verCmp x y == .gt then y :: insertVer x t else x :: y :: t

def sortVers (l : List (List Nat)) : List (List Nat) :=
  l.foldr insertVer []

/-- The success result built after the fold: normalized bound/exclusion
parts joined with commas. -/
def normalizedResult (st : ISt) : IRes :=
  let parts :=
    (match st.lower with
     | some l => [(if st.lowerInc then ">=" else ">") ++ renderVer l]
     | none => []) ++
    (match st.upper with
     | some u => [(if st.upperInc then "<=" else "<") ++ renderVer u]
     | none => []) ++
    (sortVers st.notEquals).map (fun v => "!=" ++ renderVer v)
  { ok := true, reason := "", normalized := String.intercalate "," parts
    unsupported := st.unsupported }

/-- Is the exact pin below the lower bound (strictly, or equal to an
exclusive bound)? -/
def pinBelowLower (lower : Option (List Nat)) (inc : Bool) (e : List Nat) : Bool :=
  match lower with
  | some l => (verCmp e l == .lt) || ((verCmp e l == .eq) && !inc)
  | none => false

/-- Is the exact pin above the upper bound? -/
def pinAboveUpper (upper : Option (List Nat)) (inc : Bool) (e : List Nat) : Bool :=
  match upper with
  | some u => (verCmp e u == .gt) || ((verCmp e u == .eq) && !inc)
  | none => false

/-- The checks after the fold: exact-pin consistency, then bound conflicts,
then the normalized set. -/
def finishIntersection (st : ISt) : IRes :=
  match st.exactPin with
  | some e =>
    if st.notEquals.any (fun w => verCmp w e == .eq) then
      { ok := false, normalized := "", reason := "exact pin " ++ renderVer e ++ " is explicitly excluded" }
    else if pinBelowLower st.lower st.lowerInc e then
      { ok := false, normalized := "", reason := "exact pin " ++ renderVer e ++ " is below lower bound" }
    else if pinAboveUpper st.upper st.upperInc e then
      { ok := false, normalized := "", reason := "exact pin " ++ renderVer e ++ " is above upper bound" }
    else
      { ok := true, reason := "", normalized := "==" ++ renderVer e
        unsupported := st.unsupported }
  | none =>
    match st.lower, st.upper with
    | some l, some u =>
      if verCmp u l == .lt then
        { ok := false, normalized := "", reason := "lower bound " ++ renderVer l ++ " is greater than upper bound " ++ renderVer u }
      else if (verCmp l u == .eq) && (!st.lowerInc || !st.upperInc) then
        { ok := false, normalized := "", reason := "bounds collapse to excluded single version " ++ renderVer l }
      else if (verCmp l u == .eq) && st.notEquals.any (fun w => verCmp w l == .eq) then
        { ok := false, normalized := "", reason := "only allowed version " ++ renderVer l ++ " is excluded" }
      else normalizedResult st
    | _, _ => normalizedResult st

/-- `specifiers_intersection(specs)`. -/
def specifiers_intersection (specs : List String) : IRes :=
  match specs.foldlM stepSpecText {} with
  | .error r => r
  | .ok st => finishIntersection st

/-- `exact_versions(spec)`: the `==`-prefixed parts of a spec text (note a
`===` part also starts with `==` and yields a leading-`=` version text, as in
the source). -/
def exact_versions (spec : String) : List String :=
  (((splitOnChar ',' spec).map jsTrim).filter (fun p => p ≠ "")).filterMap
    (fun p =>
      if startsWithChars "==".data p.data then some (jsTrim ⟨p.data.drop 2⟩) else none)

/-- Does one parsed specifier admit the version (numeric fragment of the
`packaging` containment check)?  Parse failures answer `true`, mirroring the
broad exception fallback of `satisfies`. -/
def specContains (sp : SpecOp × String) (v : List Nat) : Bool :=
  match parseVersion sp.2 with
  | none => true
  | some w =>
    match sp.1 with
    | SpecOp.eq => verCmp v w == Ordering.eq
    | SpecOp.ne => !(verCmp v w == Ordering.eq)
    | SpecOp.lt => verCmp v w == Ordering.lt
    | SpecOp.le => !(verCmp v w == Ordering.gt)
    | SpecOp.gt => verCmp v w == Ordering.gt
    | SpecOp.ge => !(verCmp v w == Ordering.lt)
    | SpecOp.compat => !(verCmp v w == Ordering.lt) && (verCmp v (compatibleUpperFor w) == Ordering.lt)
    | SpecOp.arbitrary => renderVer v == sp.2

/-- `satisfies(version, spec)`: an empty spec admits everything, an invalid
version admits nothing, an unparsable spec set admits everything. -/
def satisfiesVer (versionText : String) (spec : String) : Bool :=
  if spec = "" then true
  else
    match parseVersion versionText with
    | none => false
    | some v =>
      match parseSpecSet spec with
      | none => true
      | some sps => sps.all (fun sp => specContains sp v)

/-- Outcome of the per-package grouping step of the audit loop. -/
structure GroupResult where
  conflictReasons : Option (List String)
  compatibleEntry : Option String
  incompatibleLine : Option String
deriving DecidableEq, Repr

/-- One iteration of the audit loop over a package group: sort and dedup the
spec texts, intersect, and emit either a conflict (with pin cross-check
reasons) or a compatible requirement line. -/
def auditPackage (pkg : String) (entrySpecs : List String) : GroupResult :=
  let specs := sortStrings (dedupStrings ((entrySpecs.map jsTrim).filter (fun s => s ≠ "")))
  if specs = [] then
    { conflictReasons := none, compatibleEntry := some pkg, incompatibleLine := none }
  else
    let intersect := specifiers_intersection specs
    if !intersect.ok then
      let exacts := sortStrings (dedupStrings (specs.flatMap exact_versions))
      let pinConflicts := exacts.flatMap (fun ev =>
        specs.filterMap (fun s =>
          if !satisfiesVer ev s then
            some ("exact pin " ++ ev ++ " not compatible with spec " ++ s)
          else none))
      let reasons := sortStrings (dedupStrings ([intersect.reason] ++ pinConflicts))
      { conflictReasons := some reasons
        compatibleEntry := none
        incompatibleLine := some (pkg ++ " :: " ++ String.intercalate " | " specs ++
          " :: " ++ String.intercalate " | " reasons) }
    else
      let normalized := jsTrim intersect.normalized
      let unsupported := intersect.unsupported.filter (fun x => x ≠ "")
      if unsupported ≠ [] then
        { conflictReasons := some unsupported
          compatibleEntry := none
          incompatibleLine := some (pkg ++ " :: " ++ String.intercalate " | " specs ++
            " :: " ++ String.intercalate " | " unsupported) }
      else
        { conflictReasons := none
          compatibleEntry := some (pkg ++ normalized)
          incompatibleLine := none }

/-- Insertion sort of package groups by name (the loop iterates
`sorted(pkg_map.items())`). -/
def insertPkg (x : String × List String) :
    List (String × List String) → List (String × List String)
  | [] => [x]
  | y :: t => if strLe x.1 y.1 then x :: y :: t else y :: insertPkg x t

/-- The audit loop over a package map: compatible entries and incompatible
lines, packages in name order. -/
def auditGroups (pkgMap : List (String × List String)) : List String × List String :=
  (pkgMap.foldr insertPkg []).foldl
    (fun acc p =>
      let g := auditPackage p.1 p.2
      (acc.1 ++ (match g.compatibleEntry with | some e => [e] | none => []),
       acc.2 ++ (match g.incompatibleLine with | some e => [e] | none => [])))
    ([], [])

/-- Lines of `modusnap_compatible_requirements.txt`
(`sorted(set(compatible_requirements))`). -/
def compatibleFileLines (pkgMap : List (String × List String)) : List String :=
  sortStrings (dedupStrings (auditGroups pkgMap).1)

/-- The upper-bound tie test under which the `~=` merge and a plain `<` merge
of the compatible upper bound differ. -/
def tieCompat (st : ISt) (low : List Nat) : Bool :=
  match st.upper with
  | some u => (verCmp (compatibleUpperFor low) u == .eq) && st.upperInc
  | none => false

/-! ## AutoHeal (`autoHealPipConflicts`)

The pip subprocess outcomes are an oracle stream `env : Nat → StepResult`
consumed in call order (install commands and checks each advance the index),
so one theorem quantifies over every possible sequence of pip outputs.  The
venv-missing synthetic failure is one particular `StepResult` of the stream.
The regex extraction is modelled by the same first-match / greedy-tail
behaviour on the casing pip emits. -/

/-- Trimmed non-blank lines of a pip output. -/
def pipLines (output : String) : List String :=
  ((splitOnChar '\n' output).map jsTrim).filter (fun l => l ≠ "")

/-- The conflict-signature flags of `parsePipConflicts`. -/
structure ConflictFlags where
  hasShaderflowScipyConflict : Bool
  hasGradioPillowConflict : Bool
  hasDepthflowMissingDeps : Bool
  hasRembgStrictPins : Bool
  hasFastapiStarletteConflict : Bool
  hasSSEStarletteConflict : Bool
deriving DecidableEq, Repr

/-- `parsePipConflicts(output)`: per-line substring signatures. -/
def parsePipConflicts (output : String) : ConflictFlags :=
  let lines := pipLines output
  { hasShaderflowScipyConflict := lines.any (fun l =>
      strIncludes l "shaderflow" && strIncludes l "scipy~=1.15.3")
    hasGradioPillowConflict := lines.any (fun l =>
      strIncludes l "gradio" && strIncludes l "pillow<12.0")
    hasDepthflowMissingDeps := lines.any (fun l =>
      strIncludes l "depthflow" &&
        (strIncludes l "requires gradio" || strIncludes l "requires shaderflow"))
    hasRembgStrictPins := lines.any (fun l =>
      strIncludes l "rembg" &&
        (strIncludes l "requires pillow" || strIncludes l "requires scipy"))
    hasFastapiStarletteConflict := lines.any (fun l =>
      strIncludes l "fastapi" && strIncludes l "has requirement starlette<0.47.0,>=0.40.0")
    hasSSEStarletteConflict := lines.any (fun l =>
      strIncludes l "sse-starlette" && strIncludes l "has requirement starlette>=0.49.1") }

/-- First index at which `n` occurs in `h`. -/
def findSubIdx (n : List Char) : List Char → Option Nat
  | [] => if n.isEmpty then some 0 else none
  | c :: t =>
    if startsWithChars n (c :: t) then some 0
    else (findSubIdx n t).map (fun i => i + 1)

/-- Last index at which `n` occurs in `h`. -/
def lastSubIdx (n h : List Char) : Option Nat :=
  match findSubIdx n.reverse h.reverse with
  | none => none
  | some i => some (h.length - n.length - i)

/-- Greedy capture `pre(.+)post` on one line: first occurrence of the prefix,
last occurrence of the suffix, at least one captured character. -/
def captureBetween (pre post : String) (line : String) : Option String :=
  match findSubIdx pre.data line.data with
  | none => none
  | some i =>
    match lastSubIdx post.data line.data with
    | none => none
    | some j =>
      if i + pre.data.length < j then
        some (jsTrim ⟨(line.data.drop (i + pre.data.length)).take (j - (i + pre.data.length))⟩)
      else none

/-- `extractPipRequiredSpecs(output)`: spec hints from
`has requirement <spec>, but you have ...` and
`requires <spec>, which is not installed.` lines, deduplicated in first-seen
order (a JavaScript `Set`). -/
def extractPipRequiredSpecs (output : String) : List String :=
  dedupStrings ((pipLines output).filterMap (fun line =>
    match captureBetween "has requirement " ", but you have " line with
    | some spec => some spec
    | none => captureBetween "requires " ", which is not installed." line))

/-- `specs.slice().sort().join('|')`. -/
def specsKey (specs : List String) : String :=
  String.intercalate "|" (sortStrings specs)

/-- What a loop iteration did. -/
inductive RoundAction where
  | compatProfile
  | typerProfile
  | fastapiProfile
  | installSpecs (specs : List String)
deriving DecidableEq, Repr

/-- One loop iteration: a recipe run with its pip-check outcome, or one of
the two loop exits. -/
inductive Round where
  | ran (action : RoundAction) (checkOk : Bool)
  | exitNoSpecs
  | exitSeen (specs : List String)
deriving DecidableEq, Repr

/-- The `for round in 1..6` loop of `autoHealPipConflicts`, producing the
iteration trace.  `k` is the next oracle index; each branch consumes its
install calls and one check call.  A successful check returns (the trace
ends); a failed one feeds its output into the next round. -/
def autoHealLoop (env : Nat → StepResult) :
    Nat → Nat → String → List String → Bool → List Round
  | 0, _, _, _, _ => []
  | fuel + 1, k, current, seen, compatApplied =>
    let parsed := parsePipConflicts current
    let needsCompat := parsed.hasShaderflowScipyConflict || parsed.hasGradioPillowConflict ||
      parsed.hasDepthflowMissingDeps || parsed.hasRembgStrictPins
    if needsCompat && !compatApplied then
      let check := env (k + 2)
      if check.ok then [Round.ran RoundAction.compatProfile true]
      else Round.ran RoundAction.compatProfile false ::
        autoHealLoop env fuel (k + 3) check.output seen true
    else
      let hasTyper := (strIncludes current "broken-source" && strIncludes current "typer~=0.15.4") ||
        (strIncludes current "typer-slim" && strIncludes current "typer>=0.24.0")
      if hasTyper then
        let check := env (k + 1)
        if check.ok then [Round.ran RoundAction.typerProfile true]
        else Round.ran RoundAction.typerProfile false ::
          autoHealLoop env fuel (k + 2) check.output seen compatApplied
      else if parsed.hasFastapiStarletteConflict && parsed.hasSSEStarletteConflict then
        let check := env (k + 1)
        if check.ok then [Round.ran RoundAction.fastapiProfile true]
        else Round.ran RoundAction.fastapiProfile false ::
          autoHealLoop env fuel (k + 2) check.output seen compatApplied
      else
        let specs := extractPipRequiredSpecs current
        if specs = [] then [Round.exitNoSpecs]
        else if seen.contains (specsKey specs) then [Round.exitSeen specs]
        else
          let check := env (k + specs.length)
          if check.ok then [Round.ran (RoundAction.installSpecs specs) true]
          else Round.ran (RoundAction.installSpecs specs) false ::
            autoHealLoop env fuel (k + specs.length + 1) check.output
              (seen ++ [specsKey specs]) compatApplied

/-- The round trace of `autoHealPipConflicts` (6 rounds, fresh seen set). -/
def autoHealRounds (env : Nat → StepResult) (initialOutput : String) : List Round :=
  autoHealLoop env 6 0 initialOutput [] false

/-- Did the round run a recipe whose concluding check failed? -/
def isFailedRun : Round → Bool
  | Round.ran _ false => true
  | _ => false

/-- Every round but the last ran a recipe and its check failed (so the loop
stops as soon as a check succeeds, and the exits are terminal). -/
def okStops : List Round → Bool
  | [] => true
  | r :: rest => (rest.isEmpty || isFailedRun r) && okStops rest

/-- Seen-set evolution: an extracted-specs run records its key. -/
def roundKeyUpdate (seen : List String) : Round → List String
  | Round.ran (RoundAction.installSpecs s) _ => seen ++ [specsKey s]
  | _ => seen

/-- An extracted-specs run only happens on a key that was never seen. -/
def roundFreshOk (seen : List String) : Round → Bool
  | Round.ran (RoundAction.installSpecs s) _ => !(seen.contains (specsKey s))
  | _ => true

/-- An `exitSeen` exit only happens on a key that WAS seen. -/
def roundSeenOk (seen : List String) : Round → Bool
  | Round.exitSeen specs => seen.contains (specsKey specs)
  | _ => true

/-- No extracted spec set is ever installed twice (relative to an initial
seen set). -/
def installKeysFresh (seen : List String) : List Round → Bool
  | [] => true
  | r :: rest => roundFreshOk seen r && installKeysFresh (roundKeyUpdate seen r) rest

/-- Every `exitSeen` exit names a spec set recorded by an earlier
extracted-specs round (or the initial seen set). -/
def exitSeenJustified (seen : List String) : List Round → Bool
  | [] => true
  | r :: rest => roundSeenOk seen r && exitSeenJustified (roundKeyUpdate seen r) rest

/-! # Theorems -/

/-- Structure of a `sanitizeGo` run: it extends the accumulator with a
duplicate-free selection of the trimmed inputs, keeping their order, and every
selected value passes the sanitiser regex. -/
theorem sanitizeGo_extends (xs : List String) : ∀ acc : List String,
    ∃ t, sanitizeGo xs acc = acc ++ t ∧ t.Sublist (xs.map jsTrim) ∧
      (∀ s ∈ t, specRegexTest s = true) ∧ (acc.Nodup → (acc ++ t).Nodup) := by
  induction xs with
  | nil =>
    intro acc
    exact ⟨[], by simp [sanitizeGo], by simp, by simp, by simp⟩
  | cons x xs ih =>
    intro acc
    by_cases h1 : jsTrim x = ""
    · obtain ⟨t, ht, hsub, hall, hnd⟩ := ih acc
      exact ⟨t, by simp [sanitizeGo, h1, ht], hsub.trans (List.sublist_cons_self _ _),
        hall, hnd⟩
    · by_cases h2 : specRegexTest (jsTrim x) = true
      · by_cases h3 : acc.contains (jsTrim x) = true
        · obtain ⟨t, ht, hsub, hall, hnd⟩ := ih acc
          have hmem : jsTrim x ∈ acc := by simpa using h3
          exact ⟨t, by simp [sanitizeGo, h1, h2, hmem, ht],
            hsub.trans (List.sublist_cons_self _ _), hall, hnd⟩
        · obtain ⟨t, ht, hsub, hall, hnd⟩ := ih (acc ++ [jsTrim x])
          refine ⟨jsTrim x :: t, ?_, ?_, ?_, ?_⟩
          · simp only [sanitizeGo, h1, h2, h3]
            simp [ht]
          · exact List.Sublist.cons₂ _ hsub
          · intro s hs
            rcases List.mem_cons.mp hs with h | h
            · exact h ▸ h2
            · exact hall _ h
          · intro hacc
            have hx : jsTrim x ∉ acc := fun hmem => h3 (by simpa using hmem)
            have hnodup : (acc ++ [jsTrim x]).Nodup := by
              simp [List.nodup_append, hacc, hx]
            have := hnd hnodup
            simpa [List.append_assoc] using this
      · obtain ⟨t, ht, hsub, hall, hnd⟩ := ih acc
        refine ⟨t, ?_, hsub.trans (List.sublist_cons_self _ _), hall, hnd⟩
        simp only [sanitizeGo, h1]
        simp [h2, ht]

/-- C1 (amended).  `createPlan` sanitises the requested package list: every
surviving specifier consists only of characters of the class
`[A-Za-z0-9_.\-<>=!~[],:@+/ ]` (space included), duplicates are removed and
the order of surviving specifiers is preserved (the result is a duplicate-free
sublist of the trimmed input).  For the input
`["torch==2.4", "rm -rf /", "pillow"]` the recorded `requestedPackages` is
`["torch==2.4", "rm -rf /", "pillow"]`: the middle element survives because
every one of its characters (letters, space, hyphen, slash) is inside the
class. -/
theorem C1_sanitize_createPlan (xs : List String) :
    (sanitizePackages xs).Sublist (xs.map jsTrim) ∧
    (sanitizePackages xs).Nodup ∧
    (∀ s, s ∈ sanitizePackages xs → specRegexTest s = true) ∧
    (createPlan "uuid-1" "now-1" "install" ["torch==2.4", "rm -rf /", "pillow"] []).1.requestedPackages
      = ["torch==2.4", "rm -rf /", "pillow"] := by
  obtain ⟨t, ht, hsub, hall, hnd⟩ := sanitizeGo_extends xs []
  have hres : sanitizePackages xs = t := by simpa [sanitizePackages] using ht
  refine ⟨hres ▸ hsub, ?_, ?_, by decide⟩
  · rw [hres]
    simpa using hnd List.nodup_nil
  · intro s hs
    exact hall s (hres ▸ hs)

/-- Witness for C1 at a concrete input with an empty value, a rejected value
and a duplicate. -/
theorem C1_sanitize_createPlan_witness :
    (sanitizePackages ["numpy", "bad;rm", "numpy", " "]).Nodup ∧
    specRegexTest "numpy" = true ∧
    sanitizePackages ["numpy", "bad;rm", "numpy", " "] = ["numpy"] := by
  have h := C1_sanitize_createPlan ["numpy", "bad;rm", "numpy", " "]
  exact ⟨h.2.1, h.2.2.1 "numpy" (by decide), by decide⟩

/-- Counterexample to C1 as stated: `"rm -rf /"` contains no character
outside the allowed class, so it is NOT dropped, and the recorded
`requestedPackages` for the E2 input is not `["torch==2.4", "pillow"]`. -/
theorem C1_counterexample :
    sanitizePackages ["torch==2.4", "rm -rf /", "pillow"]
      = ["torch==2.4", "rm -rf /", "pillow"] ∧
    specRegexTest "rm -rf /" = true ∧
    (createPlan "uuid-1" "now-1" "install" ["torch==2.4", "rm -rf /", "pillow"] []).1.requestedPackages
      ≠ ["torch==2.4", "pillow"] := by decide

/-- C2 (amended).  For a stored transaction: when its `snapshotBefore` is
missing or absent from disk, `rollback` answers 409 CONFLICT and leaves the
persisted store unchanged; otherwise it creates and persists a new
transaction with `kind = "repair"` (the source has no `"rollback"` kind),
`rollbackOf` the rolled-back id, plan commands
`["python -m pip install -r <snapshot-before>", "python -m pip check"]`, and
final status `"rolled_back"` exactly when the concluding `pip check`
succeeds, `"failed"` otherwise. -/
theorem C2_rollback_behaviour (env : PipEnv) (store : List EnvTx) (id : String)
    (tx : EnvTx) (hfind : findTxInStore store id = some tx) :
    (∀ sb, tx.snapshotBefore = some sb → env.fileExists sb = true →
      (rollbackTransaction env store id).ok = true ∧
      (rollbackTransaction env store id).transaction.map EnvTx.kind = some "repair" ∧
      (rollbackTransaction env store id).transaction.map EnvTx.rollbackOf = some (some tx.id) ∧
      (rollbackTransaction env store id).transaction.map EnvTx.planCommands = some rollbackPlanCommands ∧
      (rollbackTransaction env store id).transaction.map EnvTx.status =
        some (if (env.calls 1).ok then "rolled_back" else "failed") ∧
      (rollbackTransaction env store id).transaction.map EnvTx.pipHealthy =
        some (some (env.calls 1).ok) ∧
      (∃ rtx, (rollbackTransaction env store id).transaction = some rtx ∧
        (rollbackTransaction env store id).store = truncateTx (store ++ [rtx]))) ∧
    ((tx.snapshotBefore = none ∨
        ∃ sb, tx.snapshotBefore = some sb ∧ env.fileExists sb = false) →
      (rollbackTransaction env store id).httpStatus = 409 ∧
      (rollbackTransaction env store id).ok = false ∧
      (rollbackTransaction env store id).store = store) := by
  constructor
  · intro sb hsb hex
    simp [rollbackTransaction, hfind, hsb, hex, runPythonStep]
  · intro hmiss
    rcases hmiss with hnone | ⟨sb, hsb, hex⟩
    · simp [rollbackTransaction, hfind, hnone]
    · simp [rollbackTransaction, hfind, hsb, hex]

/-- Witness for C2 on a concrete store whose transaction has a snapshot on
disk and whose `pip check` succeeds. -/
theorem C2_rollback_behaviour_witness :
    (rollbackTransaction exEnvC2 [exTxC2] "t1").ok = true ∧
    (rollbackTransaction exEnvC2 [exTxC2] "t1").transaction.map EnvTx.kind = some "repair" ∧
    (rollbackTransaction exEnvC2 [exTxC2] "t1").transaction.map EnvTx.status = some "rolled_back" := by
  have h := (C2_rollback_behaviour exEnvC2 [exTxC2] "t1" exTxC2 (by decide)).1
    "snap-before.txt" (by decide) (by decide)
  refine ⟨h.1, h.2.1, ?_⟩
  have := h.2.2.2.2.1
  simpa using this

/-- Counterexample to C2 as stated: the freshly created rollback transaction
has `kind = "repair"`, not `kind = "rollback"`. -/
theorem C2_counterexample :
    (rollbackTransaction exEnvC2 [exTxC2] "t1").transaction.map EnvTx.kind = some "repair" ∧
    (rollbackTransaction exEnvC2 [exTxC2] "t1").transaction.map EnvTx.kind ≠ some "rollback" := by
  decide

/-- C3.  `apply` on a transaction whose status is outside {planned, failed}
returns 409 CONFLICT, runs no subprocess step, performs no `writeStore`, and
leaves the persisted store (hence every field of the stored transaction)
unchanged. -/
theorem C3_apply_conflict (env : PipEnv) (store : List EnvTx) (id : String) (i : Nat)
    (hfind : store.findIdx? (fun tx => tx.id == id) = some i)
    (hstat : ¬ (((store.get? i).getD default).status = "planned" ∨
                ((store.get? i).getD default).status = "failed")) :
    applyTransaction env store id =
      { ok := false, httpStatus := 409
        error := some ("Transaction is " ++ ((store.get? i).getD default).status ++
          "; only planned/failed can be applied.")
        transaction := none, store := store, writes := [], pythonCalls := 0 } := by
  simp only [applyTransaction, hfind]
  rw [if_neg hstat]

/-- Witness for C3: a store holding one `running` transaction. -/
theorem C3_apply_conflict_witness :
    applyTransaction exEnvC3 [exTxC3] "t9" =
      { ok := false, httpStatus := 409
        error := some "Transaction is running; only planned/failed can be applied."
        transaction := none, store := [exTxC3], writes := [], pythonCalls := 0 } := by
  have h := C3_apply_conflict exEnvC3 [exTxC3] "t9" 0 (by decide) (by decide)
  simpa using h

/-- C4 (amended).  A `writeStore` mutation is two `mkdirSync` calls followed
by a single direct `writeFileSync` of the truncated store into
`transactions.json`; there is no write-new-then-rename step, so atomicity is
not provided by a rename.  A torn or lost write is tolerated only because
`readStore` degrades a missing or unparsable file to the empty store. -/
theorem C4_write_in_place (store : List EnvTx) :
    writeStoreOps store =
      [FsOp.mkdir envRootPath, FsOp.mkdir snapshotsDirPath,
       FsOp.writeFile txStorePath (truncateTx store)] ∧
    (writeStoreOps store).all (fun op => !op.isRename) = true ∧
    readStoreFrom none = [] ∧ readStoreFrom (some none) = [] := by
  exact ⟨rfl, rfl, rfl, rfl⟩

/-- Counterexample to C4 as stated: on a concrete store the full operation
trace of a mutation contains no rename at all — the store file is written in
place. -/
theorem C4_counterexample :
    writeStoreOps [exTxC4] =
      [FsOp.mkdir envRootPath, FsOp.mkdir snapshotsDirPath,
       FsOp.writeFile txStorePath [exTxC4]] ∧
    (writeStoreOps [exTxC4]).all (fun op => !op.isRename) = true := by
  decide

/-- The persisted store after N plan creations is the suffix of the creation
sequence that survives the 200-entry truncation. -/
theorem storeAfterCreates_eq (N : Nat) :
    storeAfterCreates N = (createdSeq N).drop (N - MAX_TX) := by
  induction N with
  | zero => rfl
  | succ n ih =>
    have hlen : (createdSeq n).length = n := by simp [createdSeq]
    have hseq : createdSeq (n + 1) =
        createdSeq n ++ [planTx (toString n) (toString n) "repair" []] := by
      simp [createdSeq, List.range_succ]
    have hstep : storeAfterCreates (n + 1) =
        truncateTx (storeAfterCreates n ++ [planTx (toString n) (toString n) "repair" []]) := by
      simp [storeAfterCreates, createPlan]
    rw [hstep, ih, hseq]
    rw [← List.drop_append_of_le_length (by omega)]
    unfold truncateTx
    rw [List.drop_drop]
    congr 1
    have hlen2 : ((createdSeq n ++ [planTx (toString n) (toString n) "repair" []]).drop
        (n - MAX_TX)).length = n + 1 - (n - MAX_TX) := by
      simp [List.length_drop, hlen]
    rw [hlen2]
    have : MAX_TX = 200 := rfl
    omega

/-- C6.  A merged lower bound strictly above the merged upper bound is a
conflict with the reason naming both bounds; on the E3 inputs
(`starlette<0.47.0,>=0.40.0` and `starlette>=0.49.1`) the audit emits
starlette into the incompatible lines with the reason
`lower bound 0.49.1 is greater than upper bound 0.47.0` and omits it from
the compatible requirements. -/
theorem C6_bound_conflict (st : ISt) (l u : List Nat)
    (hexact : st.exactPin = none) (hl : st.lower = some l) (hu : st.upper = some u)
    (hlt : verCmp u l = Ordering.lt) :
    finishIntersection st =
      { ok := false, normalized := ""
        reason := "lower bound " ++ renderVer l ++ " is greater than upper bound " ++ renderVer u } ∧
    specifiers_intersection ["<0.47.0,>=0.40.0", ">=0.49.1"] =
      { ok := false, normalized := ""
        reason := "lower bound 0.49.1 is greater than upper bound 0.47.0" } ∧
    auditGroups [("starlette", ["<0.47.0,>=0.40.0", ">=0.49.1"])] =
      ([], ["starlette :: <0.47.0,>=0.40.0 | >=0.49.1 :: lower bound 0.49.1 is greater than upper bound 0.47.0"]) ∧
    compatibleFileLines [("starlette", ["<0.47.0,>=0.40.0", ">=0.49.1"])] = [] := by
  refine ⟨?_, by decide, by decide, by decide⟩
  simp [finishIntersection, hexact, hl, hu, hlt]
  intro hcontra
  exact absurd hcontra (by decide)

/-- Witness for C6 at the E3 bound state. -/
theorem C6_bound_conflict_witness :
    finishIntersection { lower := some [0, 49, 1], upper := some [0, 47, 0] } =
      { ok := false, normalized := ""
        reason := "lower bound 0.49.1 is greater than upper bound 0.47.0" } :=
  (C6_bound_conflict { lower := some [0, 49, 1], upper := some [0, 47, 0] }
    [0, 49, 1] [0, 47, 0] rfl rfl rfl (by decide)).1

/-- The `~=` merge coincides with merging `>=low` followed by
`<compatibleUpperFor low` whenever the current upper bound is not an
inclusive bound version-equal to `compatibleUpperFor low`. -/
theorem applyCompat_eq_bounds (st : ISt) (low : List Nat)
    (htie : tieCompat st low = false) :
    applyCompat st low =
      applyUpperBound (applyLowerBound st low false) (compatibleUpperFor low) true := by
  have hupc : compatUpperCond st.upper st.upperInc (compatibleUpperFor low) =
      upperUpdateCond st.upper (compatibleUpperFor low) true := by
    unfold tieCompat at htie
    unfold compatUpperCond upperUpdateCond
    cases hU : st.upper with
    | none => rfl
    | some u =>
      rw [hU] at htie
      have htie2 : (verCmp (compatibleUpperFor low) u == Ordering.eq && st.upperInc) = false := htie
      by_cases heq : (verCmp (compatibleUpperFor low) u == Ordering.eq) = true
      · have hinc : st.upperInc = false := by
          rcases Bool.eq_false_or_eq_true st.upperInc with h | h
          · rw [heq, h] at htie2; simp at htie2
          · exact h
        simp [heq, hinc]
      · have heq2 : (verCmp (compatibleUpperFor low) u == Ordering.eq) = false := by
          simpa using heq
        simp [heq2]
  have hlc : compatLowerCond st.lower low = lowerUpdateCond st.lower low false := by
    unfold compatLowerCond lowerUpdateCond
    cases st.lower <;> simp
  unfold applyCompat applyLowerBound applyUpperBound
  rw [hlc]
  by_cases hcond : lowerUpdateCond st.lower low false = true
  · simp only [hcond, if_true]
    simpa using congrArg (fun c => if c = true then
      ({ { st with lower := some low, lowerInc := true } with
          upper := some (compatibleUpperFor low), upperInc := false } : ISt)
      else { st with lower := some low, lowerInc := true }) hupc
  · simp only [Bool.not_eq_true] at hcond
    simp only [hcond, if_false]
    simpa using congrArg (fun c => if c = true then
      ({ st with upper := some (compatibleUpperFor low), upperInc := false } : ISt)
      else st) hupc

/-- C7 (amended).  The reconciler treats `~=V` as the lower bound `>=V`
together with the exclusive upper-bound candidate `<nextBoundary(V)` — where
`nextBoundary` bumps the second-to-last release component (`~=1.15.3` gives
`<1.16`) or the major for a one-component release — and this is literally the
composition of the `>=` and `<` merge steps except when the current upper
bound is already an inclusive bound version-equal to `nextBoundary(V)`, in
which case the inclusive bound is kept. -/
theorem C7_compat_treated_as_bounds (st : ISt) (specText vText upText : String)
    (v : List Nat)
    (hv : parseVersion vText = some v)
    (hup : parseVersion upText = some (compatibleUpperFor v))
    (htie : tieCompat st v = false) :
    stepSpec specText st (SpecOp.compat, vText) =
      (stepSpec specText st (SpecOp.ge, vText)).bind
        (fun st1 => stepSpec specText st1 (SpecOp.lt, upText)) ∧
    compatibleUpperFor [1, 15, 3] = [1, 16] ∧
    compatibleUpperFor [2] = [3] ∧
    specifiers_intersection ["~=1.15.3"] =
      { ok := true, reason := "", normalized := ">=1.15.3,<1.16", unsupported := [] } := by
  refine ⟨?_, by decide, by decide, by decide⟩
  simp only [stepSpec, hv, hup]
  rw [applyCompat_eq_bounds st v htie]
  rfl

/-- Witness for C7 from the empty intersection state. -/
theorem C7_compat_treated_as_bounds_witness :
    stepSpec "~=1.15.3" {} (SpecOp.compat, "1.15.3") =
      (stepSpec "~=1.15.3" {} (SpecOp.ge, "1.15.3")).bind
        (fun st1 => stepSpec "~=1.15.3" st1 (SpecOp.lt, "1.16")) ∧
    specifiers_intersection ["~=1.15.3"] =
      { ok := true, reason := "", normalized := ">=1.15.3,<1.16", unsupported := [] } := by
  have h := C7_compat_treated_as_bounds {} "~=1.15.3" "1.15.3" "1.16" [1, 15, 3]
    (by decide) (by decide) (by decide)
  exact ⟨h.1, h.2.2.2⟩

/-- Counterexample to C7 as stated: with a pre-existing inclusive upper bound
`<=1.16`, the specifier `~=1.15.3` does NOT act as the conjunction
`>=1.15.3,<1.16` — the inclusive bound survives, while the substituted form
tightens it to an exclusive bound. -/
theorem C7_counterexample :
    (specifiers_intersection ["<=1.16", "~=1.15.3"]).normalized = ">=1.15.3,<=1.16" ∧
    (specifiers_intersection ["<=1.16", ">=1.15.3,<1.16"]).normalized = ">=1.15.3,<1.16" ∧
    specifiers_intersection ["<=1.16", "~=1.15.3"] ≠
      specifiers_intersection ["<=1.16", ">=1.15.3,<1.16"] := by
  decide

/-- Decision of `assessItem` in terms of the rule sets: blocked exactly when
a blocking rule fires, warning exactly when none blocks but some warning rule
fires, installable exactly when no rule fires. -/
theorem assessItem_decision_cases (item : CatalogItem) (hw : HwFlags) :
    ((assessItem item hw).decision = Decision.blocked ↔ blockedRuleFires item hw = true) ∧
    ((assessItem item hw).decision = Decision.warning ↔
      (blockedRuleFires item hw = false ∧ warningRuleFires item hw = true)) ∧
    ((assessItem item hw).decision = Decision.installable ↔
      (blockedRuleFires item hw = false ∧ warningRuleFires item hw = false)) := by
  by_cases h1 : (!hw.hasNvidia && matchesAny (getTextBlob item) cudaOnlyMarkerList) = true <;>
  by_cases h2 : (!hw.hasNvidia && matchesAny (getTextBlob item) cudaGeneralMarkerList) = true <;>
  by_cases h3 : (!hw.hasRocm && matchesAny (getTextBlob item) rocmOnlyMarkerList) = true <;>
  by_cases h4 : (!hw.hasRocm && matchesAny (getTextBlob item) rocmGeneralMarkerList) = true <;>
  by_cases h5 : (hw.isDarwinArm64 && matchesAny (getTextBlob item) darwinMarkerList) = true <;>
    simp [assessItem, blockedRuleFires, warningRuleFires, h1, h2, h3, h4, h5]

/-- C8.  The auditor obeys the precedence blocked > warning > installable:
an item for which a blocking rule fires is blocked, one for which only a
warning rule fires is warning, and an item matching no rule is installable.
With no NVIDIA hardware a `cuda-only` text is blocked and a bare `cuda` text
is warning, while with NVIDIA hardware the same CUDA text is installable.
In the E4 scenario (darwin-arm64, no NVIDIA/ROCm) the summary is
`{total 2, installable 1, warning 0, blocked 1}` and `blockedKeys` is exactly
the first item's key. -/
theorem C8_auditor_precedence (item : CatalogItem) (hw : HwFlags) :
    (blockedRuleFires item hw = true → (assessItem item hw).decision = Decision.blocked) ∧
    (blockedRuleFires item hw = false → warningRuleFires item hw = true →
      (assessItem item hw).decision = Decision.warning) ∧
    (blockedRuleFires item hw = false → warningRuleFires item hw = false →
      (assessItem item hw).decision = Decision.installable) ∧
    (assessItem { description := some "supports cuda-only kernels" }
        (hwFromProfile "linux-x86_64-nvidia:false-rocm:false")).decision = Decision.blocked ∧
    (assessItem { description := some "uses cuda 12" }
        (hwFromProfile "linux-x86_64-nvidia:false-rocm:false")).decision = Decision.warning ∧
    (assessItem { description := some "uses cuda 12" }
        (hwFromProfile "linux-x86_64-nvidia:true-rocm:false")).decision = Decision.installable ∧
    preflightSummary [itemE4a, itemE4b] hwE4 =
      { total := 2, installable := 1, warning := 0, blocked := 1 } ∧
    preflightBlockedKeys [itemE4a, itemE4b] hwE4 = ["CUDA-only Flash Attention"] ∧
    (assessItem itemE4a hwE4).key = "CUDA-only Flash Attention" := by
  obtain ⟨hb, hwrn, hins⟩ := assessItem_decision_cases item hw
  refine ⟨fun h => hb.mpr h, fun h h2 => hwrn.mpr ⟨h, h2⟩, fun h h2 => hins.mpr ⟨h, h2⟩,
    by decide, by decide, by decide, by decide, by decide, by decide⟩

/-- Witness for C8: the blocking rule fires on the E4 CUDA-only item under
the E4 hardware profile, and the theorem classifies it blocked. -/
theorem C8_auditor_precedence_witness :
    blockedRuleFires itemE4a hwE4 = true ∧
    (assessItem itemE4a hwE4).decision = Decision.blocked := by
  have h := C8_auditor_precedence itemE4a hwE4
  exact ⟨by decide, h.1 (by decide)⟩

/-- The preflight key of a payload row is the row key (the payload carries it
as `__uiKey`; row keys are non-empty). -/
theorem assess_payload_key (r : InstallRow) (hw : HwFlags) (hk : r.key ≠ "") :
    (assessItem (toCompatibilityPayload r) hw).key = r.key := by
  simp [assessItem, toCompatibilityPayload, jsTruthy, hk, Option.orElse]

/-- A candidate row whose payload decision is not installable contributes its
key to `incompatibleKeys`. -/
theorem key_mem_incompatible (rows : List InstallRow) (hw : HwFlags) (r : InstallRow)
    (hr : r ∈ rows) (hk : r.key ≠ "")
    (hd : (assessItem (toCompatibilityPayload r) hw).decision ≠ Decision.installable) :
    r.key ∈ incompatibleKeysOf rows hw := by
  unfold incompatibleKeysOf
  refine List.mem_map.mpr ⟨assessItem (toCompatibilityPayload r) hw, ?_,
    assess_payload_key r hw hk⟩
  refine List.mem_filter.mpr ⟨List.mem_map.mpr ⟨r, hr, rfl⟩, by simpa using hd⟩

/-- Any row of an installable row set has an installable payload decision. -/
theorem mem_installable_decision (rows : List InstallRow) (hw : HwFlags) (r : InstallRow)
    (hr : r ∈ installableRowsOf rows hw) (hk : r.key ≠ "") :
    (assessItem (toCompatibilityPayload r) hw).decision = Decision.installable := by
  obtain ⟨hrows, hpred⟩ := List.mem_filter.mp hr
  by_contra hd
  have hmem := key_mem_incompatible rows hw r hrows hk hd
  simp at hpred
  exact hpred hmem

/-- Chunking a list and flattening it back gives the original list (positive
chunk size, sufficient fuel). -/
theorem chunksGo_join (size : Nat) (hs : size ≠ 0) :
    ∀ fuel (l : List InstallRow), l.length ≤ fuel → (chunksGo size fuel l).flatten = l := by
  intro fuel
  induction fuel with
  | zero =>
    intro l hl
    have : l = [] := List.eq_nil_of_length_eq_zero (Nat.le_zero.mp hl)
    simp [this, chunksGo]
  | succ fuel ih =>
    intro l hl
    cases l with
    | nil => simp [chunksGo]
    | cons x t =>
      have hdrop : ((x :: t).drop size).length ≤ fuel := by
        simp only [List.length_drop]
        have : (x :: t).length = t.length + 1 := by simp
        omega
      simp only [chunksGo, List.flatten_cons]
      rw [ih _ hdrop]
      exact List.take_append_drop size (x :: t)

/-- Everything inside a submitted chunk is an installable row. -/
theorem mem_chunk_installable (rows : List InstallRow) (hw : HwFlags)
    (c : List InstallRow) (r : InstallRow)
    (hc : c ∈ submittedChunks rows hw) (hrc : r ∈ c) :
    r ∈ installableRowsOf rows hw := by
  have hsz : sessionChunkSize rows hw ≠ 0 := by
    unfold sessionChunkSize
    split <;> omega
  have hjoin := chunksGo_join (sessionChunkSize rows hw) hsz
    (installableRowsOf rows hw).length (installableRowsOf rows hw) le_rfl
  have : r ∈ (chunksGo (sessionChunkSize rows hw)
      (installableRowsOf rows hw).length (installableRowsOf rows hw)).flatten := by
    apply List.mem_flatten.mpr
    refine ⟨c, ?_, hrc⟩
    simpa [submittedChunks, chunksOf, hsz] using hc
  rwa [hjoin] at this

/-- C10.  In an install session every candidate whose preflight decision is
not installable (warnings as well as blocked items) is marked skipped with
reason `removed by compatibility preflight` and appears in no submitted
chunk, and every row of every submitted chunk has decision exactly
installable. -/
theorem C10_preflight_skip_semantics (rows : List InstallRow) (hw : HwFlags)
    (hkeys : ∀ r ∈ rows, r.key ≠ "") :
    (∀ r ∈ rows, (assessItem (toCompatibilityPayload r) hw).decision ≠ Decision.installable →
      (∀ c ∈ submittedChunks rows hw, r ∉ c) ∧
      (∀ it ∈ markSkipped (sessionItemsFor rows) (incompatibleKeysOf rows hw),
        it.key = r.key →
        it.status = "skipped" ∧ it.details = some "removed by compatibility preflight")) ∧
    (∀ c ∈ submittedChunks rows hw, ∀ r ∈ c,
      (assessItem (toCompatibilityPayload r) hw).decision = Decision.installable) := by
  constructor
  · intro r hr hd
    have hk := hkeys r hr
    have hkey : r.key ∈ incompatibleKeysOf rows hw := key_mem_incompatible rows hw r hr hk hd
    constructor
    · intro c hc hrc
      have hinst := mem_chunk_installable rows hw c r hc hrc
      obtain ⟨_, hpred⟩ := List.mem_filter.mp hinst
      simp at hpred
      exact hpred hkey
    · intro it hit hkeq
      obtain ⟨it0, hit0, hmap⟩ := List.mem_map.mp hit
      by_cases hcont : (incompatibleKeysOf rows hw).contains it0.key = true
      · have hmem : it0.key ∈ incompatibleKeysOf rows hw := by simpa using hcont
        rw [← hmap]
        simp [hmem]
      · exfalso
        have hmem : it0.key ∉ incompatibleKeysOf rows hw := by simpa using hcont
        have : it = it0 := by rw [← hmap]; simp [hmem]
        rw [this] at hkeq
        rw [hkeq] at hmem
        exact hmem hkey
  · intro c hc r hrc
    have hinst := mem_chunk_installable rows hw c r hc hrc
    obtain ⟨hrows, _⟩ := List.mem_filter.mp hinst
    exact mem_installable_decision rows hw r hinst (hkeys r hrows)

/-- Fixture rows for the C10 witness: a CUDA-only pack and a plain pack on
the E4 hardware profile. -/
theorem C10_preflight_skip_semantics_witness :
    ((submittedChunks [⟨"k1", itemE4a⟩, ⟨"k2", itemE4b⟩] hwE4).all
      (fun c => !(c.contains (⟨"k1", itemE4a⟩ : InstallRow)))) = true ∧
    ((markSkipped (sessionItemsFor [⟨"k1", itemE4a⟩, ⟨"k2", itemE4b⟩])
        (incompatibleKeysOf [⟨"k1", itemE4a⟩, ⟨"k2", itemE4b⟩] hwE4)).all
      (fun it => it.key ≠ "k1" ||
        (it.status == "skipped" && it.details == some "removed by compatibility preflight"))) = true := by
  have h := (C10_preflight_skip_semantics [⟨"k1", itemE4a⟩, ⟨"k2", itemE4b⟩] hwE4
    (by decide)).1 ⟨"k1", itemE4a⟩ (by decide) (by decide)
  constructor
  · apply List.all_eq_true.mpr
    intro c hc
    have hnot := h.1 c hc
    simpa using hnot
  · apply List.all_eq_true.mpr
    intro it hit
    by_cases hkeq : it.key = "k1"
    · have := h.2 it hit hkeq
      simp [this.1, this.2]
    · simp [hkeq]

/-- C5.  Starting from an empty store, after N `createPlan` calls the
persisted TxStore holds exactly `min N 200` transactions, namely the most
recent ones of the creation sequence in creation order; every write truncates
to the last 200 entries. -/
theorem C5_store_bound (N : Nat) :
    (storeAfterCreates N).length = min N MAX_TX ∧
    storeAfterCreates N = (createdSeq N).drop (N - MAX_TX) ∧
    (∀ store : List EnvTx, (truncateTx store).length = min store.length MAX_TX) := by
  refine ⟨?_, storeAfterCreates_eq N, ?_⟩
  · rw [storeAfterCreates_eq N]
    have hlen : (createdSeq N).length = N := by simp [createdSeq]
    simp only [List.length_drop, hlen]
    have : MAX_TX = 200 := rfl
    omega
  · intro store
    simp only [truncateTx, List.length_drop]
    omega

/-- Invariant of the AutoHeal loop, by induction on the remaining rounds:
the trace is no longer than the fuel, only a final round can have a
successful check, extracted spec sets are never re-installed, and every
seen-set exit names a previously recorded set. -/
theorem autoHealLoop_inv (env : Nat → StepResult) :
    ∀ fuel k current seen compatApplied,
      (autoHealLoop env fuel k current seen compatApplied).length ≤ fuel ∧
      okStops (autoHealLoop env fuel k current seen compatApplied) = true ∧
      installKeysFresh seen (autoHealLoop env fuel k current seen compatApplied) = true ∧
      exitSeenJustified seen (autoHealLoop env fuel k current seen compatApplied) = true := by
  intro fuel
  induction fuel with
  | zero =>
    intro k current seen compat
    simp [autoHealLoop, okStops, installKeysFresh, exitSeenJustified]
  | succ fuel ih =>
    intro k current seen compat
    simp only [autoHealLoop]
    by_cases h1 : (((parsePipConflicts current).hasShaderflowScipyConflict ||
        (parsePipConflicts current).hasGradioPillowConflict ||
        (parsePipConflicts current).hasDepthflowMissingDeps ||
        (parsePipConflicts current).hasRembgStrictPins) && !compat) = true
    · simp only [h1, if_true]
      by_cases h2 : (env (k + 2)).ok = true
      · simp [h2, okStops, installKeysFresh, exitSeenJustified, roundFreshOk,
          roundSeenOk, roundKeyUpdate, isFailedRun]
      · obtain ⟨ihl, iho, ihf, ihs⟩ := ih (k + 3) (env (k + 2)).output seen true
        simp only [Bool.not_eq_true] at h2
        simp [h2, okStops, installKeysFresh, exitSeenJustified, roundFreshOk,
          roundSeenOk, roundKeyUpdate, isFailedRun, iho, ihf, ihs]
        omega
    · simp only [h1, if_false]
      by_cases h3 : ((strIncludes current "broken-source" && strIncludes current "typer~=0.15.4") ||
          (strIncludes current "typer-slim" && strIncludes current "typer>=0.24.0")) = true
      · simp only [h3, if_true]
        by_cases h4 : (env (k + 1)).ok = true
        · simp [h4, okStops, installKeysFresh, exitSeenJustified, roundFreshOk,
            roundSeenOk, roundKeyUpdate, isFailedRun]
        · obtain ⟨ihl, iho, ihf, ihs⟩ := ih (k + 2) (env (k + 1)).output seen compat
          simp only [Bool.not_eq_true] at h4
          simp [h4, okStops, installKeysFresh, exitSeenJustified, roundFreshOk,
            roundSeenOk, roundKeyUpdate, isFailedRun, iho, ihf, ihs]
          omega
      · simp only [h3, if_false]
        by_cases h5 : ((parsePipConflicts current).hasFastapiStarletteConflict &&
            (parsePipConflicts current).hasSSEStarletteConflict) = true
        · simp only [h5, if_true]
          by_cases h6 : (env (k + 1)).ok = true
          · simp [h6, okStops, installKeysFresh, exitSeenJustified, roundFreshOk,
              roundSeenOk, roundKeyUpdate, isFailedRun]
          · obtain ⟨ihl, iho, ihf, ihs⟩ := ih (k + 2) (env (k + 1)).output seen compat
            simp only [Bool.not_eq_true] at h6
            simp [h6, okStops, installKeysFresh, exitSeenJustified, roundFreshOk,
              roundSeenOk, roundKeyUpdate, isFailedRun, iho, ihf, ihs]
            omega
        · simp only [h5, if_false]
          by_cases h7 : extractPipRequiredSpecs current = []
          · simp [h7, okStops, installKeysFresh, exitSeenJustified, roundFreshOk,
              roundSeenOk, roundKeyUpdate, isFailedRun]
          · simp only [h7, if_false]
            by_cases h8 : seen.contains (specsKey (extractPipRequiredSpecs current)) = true
            · have hmem : specsKey (extractPipRequiredSpecs current) ∈ seen := by simpa using h8
              simp [h8, hmem, okStops, installKeysFresh, exitSeenJustified, roundFreshOk,
                roundSeenOk, roundKeyUpdate, isFailedRun]
            · have hmem : specsKey (extractPipRequiredSpecs current) ∉ seen := by simpa using h8
              by_cases h9 : (env (k + (extractPipRequiredSpecs current).length)).ok = true
              · simp [h9, h8, hmem, okStops, installKeysFresh, exitSeenJustified, roundFreshOk,
                  roundSeenOk, roundKeyUpdate, isFailedRun]
              · obtain ⟨ihl, iho, ihf, ihs⟩ := ih (k + (extractPipRequiredSpecs current).length + 1)
                  (env (k + (extractPipRequiredSpecs current).length)).output
                  (seen ++ [specsKey (extractPipRequiredSpecs current)]) compat
                simp only [Bool.not_eq_true] at h9
                simp [h9, h8, hmem, okStops, installKeysFresh, exitSeenJustified, roundFreshOk,
                  roundSeenOk, roundKeyUpdate, isFailedRun, iho, ihf, ihs]
                omega

/-- C9.  AutoHeal terminates and never repeats itself: for every oracle of
pip outcomes and every initial output the loop performs at most 6 rounds,
every round before the last ends in a failed pip check (a successful check
returns at once, and the no-specs / seen-set exits are terminal), no
extracted spec set is installed twice, and a seen-set exit names a spec set
recorded by an earlier round. -/
theorem C9_autoheal_termination (env : Nat → StepResult) (initialOutput : String) :
    (autoHealRounds env initialOutput).length ≤ 6 ∧
    okStops (autoHealRounds env initialOutput) = true ∧
    installKeysFresh [] (autoHealRounds env initialOutput) = true ∧
    exitSeenJustified [] (autoHealRounds env initialOutput) = true :=
  autoHealLoop_inv env 6 0 initialOutput [] false

end ModuSnap
